import Mathlib

/-!
Shallow embedding of `src/piicatcher/scanner.py`: the PII type tags, the two
built-in detectors (`ColumnNameRegexDetector`, `DatumRegexDetector`) and the
two scan drivers (`metadata_scan`, `data_scan`).

External collaborators (the dbcat catalog, the crim/CommonRegex library, the
tqdm progress bar, the logging handlers) are modelled at their interface:
the catalog as the ordered list of `set_column_pii_type` calls the driver
makes, the two structured log channels as ordered lists of emitted records,
and the CommonRegex recognizers as an abstract bundle of text predicates.
tqdm only displays progress and has no effect on any observable result.
-/

namespace Piicatcher

/-- The PII category tags imported at the top of `scanner.py` (`Person`,
`Email`, ..., `KTP`).  In the source each is a zero-argument class and
`detect` returns a fresh instance `pii_type()`; the tags are identity-only,
so an inductive of fourteen constructors is a faithful model. -/
inductive PiiType where
  | Person
  | Email
  | BirthDate
  | Gender
  | Nationality
  | Address
  | ZipCode
  | UserName
  | Password
  | SSN
  | PoBox
  | CreditCard
  | Phone
  | KTP
deriving DecidableEq, Repr

/-- `dbcat.catalog.models.CatSchema`: opaque to the scanner. -/
structure CatSchema where
  sname : String
deriving DecidableEq, Repr

/-- `dbcat.catalog.models.CatTable`: opaque to the scanner. -/
structure CatTable where
  tname : String
deriving DecidableEq, Repr

/-- `dbcat.catalog.models.CatColumn`: the scanner reads only `name` (the
bare column name fed to the name detector) and `fqdn` (the fully-qualified
identifier used in log records). -/
structure CatColumn where
  name : String
  fqdn : String
deriving DecidableEq, Repr

/-- `pre` is a prefix of the character list (character-by-character equality). -/
def charPrefix : List Char → List Char → Bool
  | [], _ => true
  | _ :: _, [] => false
  | a :: as, b :: bs => a == b && charPrefix as bs

/-- `pat` occurs as a contiguous substring of the character list. -/
def charSub (pat : List Char) : List Char → Bool
  | [] => charPrefix pat []
  | b :: bs => charPrefix pat (b :: bs) || charSub pat bs

/-- A string's characters, lower-cased: the effect of `re.IGNORECASE` on the
ASCII column names and pattern tokens of `scanner.py`. -/
def lowerChars (s : String) : List Char :=
  s.data.map Char.toLower

/-- One entry of the name-pattern table.  Every pattern in
`ColumnNameRegexDetector.regex` has the shape
`^.*(tok_1|tok_2|...|tok_n).*$` compiled with `re.IGNORECASE` and used via
`ex.match(column.name)`: with the leading and trailing `.*` wildcards this
is exactly a case-insensitive search for one of the alternation's tokens as
a substring of the name (exact for names without newline characters, which
`.` does not cross).  `tokenTable` holds the alternation's tokens. -/
def regexEntryMatch (tokens : List String) (name : String) : Bool :=
  tokens.any fun t => charSub (lowerChars t) (lowerChars name)

/-- `ColumnNameRegexDetector.regex` (scanner.py lines 47-94): the ordered
dict from PII type to compiled pattern, entry order as written in the
source; each pattern is represented by the token list of its alternation.
The `UserName` pattern `^.*user(id|name|).*$` is the alternation
`userid|username|` after `user`, i.e. tokens `userid`, `username`, `user`
(the empty branch). -/
def ColumnNameRegexDetector.regex : List (PiiType × List String) :=
  [ (PiiType.Person,
      ["firstname", "fname", "lastname", "lname", "fullname", "maidenname",
       "_name", "nickname", "name_suffix", "name", "person", "nama",
       "nama_lengkap", "nama_panjang"]),
    (PiiType.Email, ["email", "e-mail", "mail"]),
    (PiiType.BirthDate,
      ["date_of_birth", "dateofbirth", "dob", "birthday", "date_of_death",
       "dateofdeath", "birthdate", "tanggal_lahir"]),
    (PiiType.Gender, ["gender", "jenis_kelamin"]),
    (PiiType.Nationality, ["nationality"]),
    (PiiType.Address,
      ["address", "city", "state", "county", "country", "zone", "borough",
       "alamat", "provinsi", "kota", "kabupaten", "kecamatan", "kelurahan",
       "desa", "nomor_rumah"]),
    (PiiType.ZipCode,
      ["zipcode", "zip_code", "postal", "postal_code", "zip", "kode_pos",
       "pos"]),
    (PiiType.UserName, ["userid", "username", "user"]),
    (PiiType.Password, ["pass"]),
    (PiiType.SSN,
      ["ssn", "social_number", "social_security", "social_security_number",
       "social_security_no"]),
    (PiiType.PoBox, ["po_box", "pobox"]),
    (PiiType.CreditCard,
      ["credit_card", "cc_number", "cc_num", "creditcard",
       "credit_card_num", "creditcardnumber", "kartu_kredit",
       "nomor_rekening", "rekening"]),
    (PiiType.Phone,
      ["phone", "phone_number", "phone_no", "phone_num", "telephone",
       "telephone_num", "telephone_no", "telp", "nomor_telepon",
       "nomor_handphone", "handphone", "telepon", "no_telepon",
       "no_handphone"]),
    (PiiType.KTP,
      ["ktp", "ktp_name", "ktp_number", "nama_ktp", "nomor_ktp", "ktp_nama",
       "ktp_nomor", "ktp_no"]) ]

/-- The loop of `ColumnNameRegexDetector.detect`: iterate the table in
order, return the first entry whose pattern matches. -/
def firstTableMatch : List (PiiType × List String) → String → Option PiiType
  | [], _ => none
  | (t, toks) :: rest, n =>
      if regexEntryMatch toks n then some t else firstTableMatch rest n

/-- `ColumnNameRegexDetector.detect` (scanner.py lines 98-103): for each
`(pii_type, ex)` of `regex` in order, return `pii_type()` on the first
`ex.match(column.name)` success; `None` when the loop falls through. -/
def ColumnNameRegexDetector.detect (column : CatColumn) : Option PiiType :=
  firstTableMatch ColumnNameRegexDetector.regex column.name

/-- A metadata-capability detector as `metadata_scan` consumes it: a `name`
(recorded as `pii_plugin` provenance) and a `detect(column)` rule. -/
structure MetadataDetector where
  name : String
  detect : CatColumn → Option PiiType

/-- A datum-capability detector as `data_scan` consumes it: `detect` is
called as `detector.detect(column=column, datum=val)` with `val` already
known to be non-`None`. -/
structure DatumDetector where
  name : String
  detect : CatColumn → String → Option PiiType

/-- The inner `for detector in detectors` loop of `metadata_scan`:
first component is the result the `break` leaves behind — the first
detector's hit together with that detector's `name` — and the second
component records, in order, the names of the detectors whose `detect` was
actually invoked for this column. -/
def runMetaDetectors : List MetadataDetector → CatColumn → Option (PiiType × String) × List String
  | [], _ => (none, [])
  | d :: ds, c =>
      match d.detect c with
      | some t => (some (t, d.name), [d.name])
      | none =>
          let r := runMetaDetectors ds c
          (r.1, d.name :: r.2)

/-- The observable effects of one `metadata_scan` run: the final values of
the `counter` and `set_number` locals, the ordered list of
`catalog.set_column_pii_type(column, pii_type, pii_plugin)` calls, and the
ordered record of detector invocations `(detector.name, column)`. -/
structure MetaScanResult where
  counter : Nat
  set_number : Nat
  writes : List (CatColumn × PiiType × String)
  detCalls : List (String × CatColumn)
deriving DecidableEq, Repr

/-- The `for schema, table, column in tqdm(generator, ...)` loop of
`metadata_scan` (scanner.py lines 115-127), processing the work stream in
order. -/
def metaScanGo (ds : List MetadataDetector) : List (CatSchema × CatTable × CatColumn) → MetaScanResult
  | [] => ⟨0, 0, [], []⟩
  | (_, _, c) :: rest =>
      let step := runMetaDetectors ds c
      let tail := metaScanGo ds rest
      match step.1 with
      | some (ty, dn) =>
          ⟨tail.counter + 1, tail.set_number + 1, (c, ty, dn) :: tail.writes,
            step.2.map (fun n => (n, c)) ++ tail.detCalls⟩
      | none =>
          ⟨tail.counter + 1, tail.set_number, tail.writes,
            step.2.map (fun n => (n, c)) ++ tail.detCalls⟩

/-- `metadata_scan` (scanner.py lines 106-129).  `work_generator` is drained
only to compute `total_columns`, which parameterizes the tqdm progress bar
and has no effect on any observable result, so it does not appear in the
result. -/
def metadata_scan (detectors : List MetadataDetector)
    (work_generator : List (CatSchema × CatTable × CatColumn))
    (generator : List (CatSchema × CatTable × CatColumn)) : MetaScanResult :=
  let total_columns := work_generator.length
  let _ := total_columns
  metaScanGo detectors generator

/-- The inner `for detector in detectors` loop of `data_scan`, analogous to
`runMetaDetectors`: first the `break` result, then the names of the
detectors invoked for this (column, datum) item. -/
def runDatumDetectors : List DatumDetector → CatColumn → String → Option (PiiType × String) × List String
  | [], _, _ => (none, [])
  | d :: ds, c, v =>
      match d.detect c v with
      | some t => (some (t, d.name), [d.name])
      | none =>
          let r := runDatumDetectors ds c v
          (r.1, d.name :: r.2)

/-- The observable effects of one `data_scan` run: the final `counter` and
`set_number`, the ordered `set_column_pii_type` calls, the ordered detector
invocations `(detector.name, column, datum)`, and the two structured log
channels — `scanLog` models the records `scan_logger.info("deep_scan",
extra={column, pii_types})` (no raw value) and `dataLog` the records
`data_logger.info("deep_scan", extra={column, data, pii_types})` (carrying
the raw sampled value `val`). -/
structure DataScanResult where
  counter : Nat
  set_number : Nat
  writes : List (CatColumn × PiiType × String)
  detCalls : List (String × CatColumn × String)
  scanLog : List (String × PiiType)
  dataLog : List (String × String × PiiType)
deriving DecidableEq, Repr

/-- The `for schema, table, column, val in tqdm(generator, ...)` loop of
`data_scan` (scanner.py lines 175-198).  The sampled value is `Option
String`: `none` models a `None` value from the generator, which the guard
`if val is not None` skips after counting the item; any present string —
the empty string included — passes the guard and reaches the detectors. -/
def dataScanGo (ds : List DatumDetector) : List (CatSchema × CatTable × CatColumn × Option String) → DataScanResult
  | [] => ⟨0, 0, [], [], [], []⟩
  | (_, _, c, val) :: rest =>
      let tail := dataScanGo ds rest
      match val with
      | none => { tail with counter := tail.counter + 1 }
      | some v =>
          let step := runDatumDetectors ds c v
          match step.1 with
          | some (ty, dn) =>
              ⟨tail.counter + 1, tail.set_number + 1,
                (c, ty, dn) :: tail.writes,
                step.2.map (fun n => (n, c, v)) ++ tail.detCalls,
                (c.fqdn, ty) :: tail.scanLog,
                (c.fqdn, v, ty) :: tail.dataLog⟩
          | none =>
              ⟨tail.counter + 1, tail.set_number, tail.writes,
                step.2.map (fun n => (n, c, v)) ++ tail.detCalls,
                tail.scanLog, tail.dataLog⟩

/-- `data_scan` (scanner.py lines 162-199).  `work_generator` and
`sample_size` only produce `total_work = len(_filter_text_columns(cols)) *
sample_size`, the tqdm progress estimate; `_filter_text_columns` lives in
`piicatcher.generators` (outside this module) and the estimate has no
effect on any observable result, so neither is modelled further. -/
def data_scan (detectors : List DatumDetector)
    (work_generator : List (CatSchema × CatTable × CatColumn))
    (generator : List (CatSchema × CatTable × CatColumn × Option String))
    (sample_size : Nat) : DataScanResult :=
  let _ := work_generator
  let _ := sample_size
  dataScanGo detectors generator

/-- The interface of the `crim` (CommonRegex) library as
`DatumRegexDetector.detect` consumes it: eight recognizers, each a predicate
on the scanned text (in the library, "the regular expression finds a match
somewhere in the text"; the result list is only ever tested for
truthiness).  The library is an external dependency, not part of this
repository, so it stays abstract here; `crSpec` below instantiates it from
the spec's description where a claim needs a concrete recognizer. -/
structure CommonRegexAPI where
  phones : String → Bool
  emails : String → Bool
  credit_cards : String → Bool
  street_addresses : String → Bool
  ssn_numbers : String → Bool
  zip_codes : String → Bool
  po_boxes : String → Bool
  ktp : String → Bool

/-- `DatumRegexDetector.detect` (scanner.py lines 138-159), parameterized by
the CommonRegex recognizer bundle.  The source first coerces with
`data = str(datum)`; `datum` is already a `str` at every call site (the
driver passes the non-`None` sampled value), and `str` on a `str` is the
identity, so `data` is `datum`.  The column parameter is bound but never
read — it exists to satisfy the shared detector signature. -/
def DatumRegexDetector.detect (cr : CommonRegexAPI) (column : CatColumn) (datum : String) : Option PiiType :=
  let _ := column
  let data := datum
  if cr.phones data then some PiiType.Phone
  else if cr.emails data then some PiiType.Email
  else if cr.credit_cards data then some PiiType.CreditCard
  else if cr.street_addresses data then some PiiType.Address
  else if cr.ssn_numbers data then some PiiType.SSN
  else if cr.zip_codes data then some PiiType.ZipCode
  else if cr.po_boxes data then some PiiType.PoBox
  else if cr.ktp data then some PiiType.KTP
  else none

/-- The fixed recognizer order of `DatumRegexDetector.detect` written as an
ordered table, following the spec's words ("tests a fixed, ordered sequence
of recognizers ... returns the PiiType for the first recognizer whose
pattern matches"), to be compared with the if-chain above. -/
def datumRecognizerTable (cr : CommonRegexAPI) : List ((String → Bool) × PiiType) :=
  [ (cr.phones, PiiType.Phone),
    (cr.emails, PiiType.Email),
    (cr.credit_cards, PiiType.CreditCard),
    (cr.street_addresses, PiiType.Address),
    (cr.ssn_numbers, PiiType.SSN),
    (cr.zip_codes, PiiType.ZipCode),
    (cr.po_boxes, PiiType.PoBox),
    (cr.ktp, PiiType.KTP) ]

/-- First recognizer of the table that accepts the text, per the spec's
first-match-wins description. -/
def firstRecognizer : List ((String → Bool) × PiiType) → String → Option PiiType
  | [], _ => none
  | (p, t) :: rest, d => if p d then some t else firstRecognizer rest d

/-- The predicate holds of some tail of the character list (i.e. the shape
is found somewhere in the text, not anchored). -/
def anyTail (p : List Char → Bool) : List Char → Bool
  | [] => p []
  | c :: cs => p (c :: cs) || anyTail p cs

/-- A NANP phone shape `ddd-ddd-dddd` starts at the head of the list. -/
def phoneShapeAt : List Char → Bool
  | a :: b :: c :: '-' :: d :: e :: f :: '-' :: g :: h :: i :: j :: _ =>
      a.isDigit && b.isDigit && c.isDigit && d.isDigit && e.isDigit &&
      f.isDigit && g.isDigit && h.isDigit && i.isDigit && j.isDigit
  | _ => false

/-- Modelled from the spec: `crim.phones`, the phone-number recognizer of
the external CommonRegex library (not in this repository).  The spec asks
that a "recognizable phone-shaped substring" be found anywhere in the text,
not anchored (its example is `"call me at 555-123-4567 thanks"`), so the
model searches every position for a `ddd-ddd-dddd` shape. -/
def specPhones (s : String) : Bool :=
  anyTail phoneShapeAt s.data

/-- An email shape: a `@` with a non-blank character on each side. -/
def emailShapeAt : List Char → Bool
  | a :: '@' :: b :: _ => a != ' ' && b != ' '
  | _ => false

/-- `n` digits start at the head of the list and the next character, if
any, is not a digit. -/
def digitRunAt : Nat → List Char → Bool
  | 0, [] => true
  | 0, c :: _ => !c.isDigit
  | _ + 1, [] => false
  | n + 1, c :: cs => c.isDigit && digitRunAt n cs

/-- An SSN shape `ddd-dd-dddd` starts at the head of the list. -/
def ssnShapeAt : List Char → Bool
  | a :: b :: c :: '-' :: d :: e :: '-' :: f :: g :: h :: i :: _ =>
      a.isDigit && b.isDigit && c.isDigit && d.isDigit && e.isDigit &&
      f.isDigit && g.isDigit && h.isDigit && i.isDigit
  | _ => false

/-- Modelled from the spec: the remaining `crim` recognizers (emails,
credit cards, street addresses, SSN-shaped numbers, ZIP codes, PO boxes,
KTP-style national IDs) of the external CommonRegex library, each a
simplified unanchored search for the named shape.  Only `phones` is
exercised by a claim's concrete example; the recognizers are bundled so the
built-in datum detector can be instantiated. -/
def crSpec : CommonRegexAPI where
  phones := specPhones
  emails := fun s => anyTail emailShapeAt s.data
  credit_cards := fun s => anyTail (digitRunAt 16) s.data
  street_addresses := fun s => charSub (lowerChars " street") (lowerChars s)
  ssn_numbers := fun s => anyTail ssnShapeAt s.data
  zip_codes := fun s => anyTail (digitRunAt 5) s.data
  po_boxes := fun s => charSub (lowerChars "po box") (lowerChars s)
  ktp := fun s => anyTail (digitRunAt 16) s.data

/-!
Fallible view of the two drivers.  `metadata_scan` and `data_scan` contain
no `try`/`except`: an exception from a `detector.detect` call or from
`catalog.set_column_pii_type` propagates and aborts the loop.  To state
this, detectors and the catalog write are re-modelled as `Except`-valued:
`.error e` is a raised exception.  The driver code itself is the same loop;
the `E`-versions below are its image under this fallible interface, and the
result records the `set_column_pii_type` calls that completed before the
abort together with the propagated exception, if any.
-/

/-- A metadata detector whose `detect` may raise. -/
structure MetadataDetectorE where
  name : String
  detect : CatColumn → Except String (Option PiiType)

/-- A datum detector whose `detect` may raise. -/
structure DatumDetectorE where
  name : String
  detect : CatColumn → String → Except String (Option PiiType)

/-- The inner detector loop of `metadata_scan` under fallible detectors:
the first raise propagates; otherwise the first hit (with the detector's
name) is returned, `none` when every detector returns `None`. -/
def runMetaDetectorsE : List MetadataDetectorE → CatColumn → Except String (Option (PiiType × String))
  | [], _ => Except.ok none
  | d :: ds, c =>
      match d.detect c with
      | Except.error e => Except.error e
      | Except.ok (some t) => Except.ok (some (t, d.name))
      | Except.ok none => runMetaDetectorsE ds c

/-- The inner detector loop of `data_scan` under fallible detectors. -/
def runDatumDetectorsE : List DatumDetectorE → CatColumn → String → Except String (Option (PiiType × String))
  | [], _, _ => Except.ok none
  | d :: ds, c, v =>
      match d.detect c v with
      | Except.error e => Except.error e
      | Except.ok (some t) => Except.ok (some (t, d.name))
      | Except.ok none => runDatumDetectorsE ds c v

/-- Outcome of a fallible scan: the `set_column_pii_type` calls that
completed, in order, and `err = some e` when an exception `e` propagated
out of the loop (aborting it), `none` when the loop ran to completion.
`counter` is the number of loop iterations entered. -/
structure ScanEResult where
  counter : Nat
  writes : List (CatColumn × PiiType × String)
  err : Option String
deriving DecidableEq, Repr

/-- The loop of `metadata_scan` under fallible detectors and a fallible
catalog (`cat c ty dn = Except.error e` models `set_column_pii_type`
raising `e`, in which case that write did not complete).  On a raise the
loop aborts: no later item is processed. -/
def metaScanEGo (ds : List MetadataDetectorE)
    (cat : CatColumn → PiiType → String → Except String Unit) :
    List (CatSchema × CatTable × CatColumn) → ScanEResult
  | [] => ⟨0, [], none⟩
  | (_, _, c) :: rest =>
      match runMetaDetectorsE ds c with
      | Except.error e => ⟨1, [], some e⟩
      | Except.ok none =>
          let tail := metaScanEGo ds cat rest
          { tail with counter := tail.counter + 1 }
      | Except.ok (some (ty, dn)) =>
          match cat c ty dn with
          | Except.error e => ⟨1, [], some e⟩
          | Except.ok _ =>
              let tail := metaScanEGo ds cat rest
              ⟨tail.counter + 1, (c, ty, dn) :: tail.writes, tail.err⟩

/-- The loop of `data_scan` under fallible detectors and a fallible
catalog; the `if val is not None` guard is as in `dataScanGo`. -/
def dataScanEGo (ds : List DatumDetectorE)
    (cat : CatColumn → PiiType → String → Except String Unit) :
    List (CatSchema × CatTable × CatColumn × Option String) → ScanEResult
  | [] => ⟨0, [], none⟩
  | (_, _, c, val) :: rest =>
      match val with
      | none =>
          let tail := dataScanEGo ds cat rest
          { tail with counter := tail.counter + 1 }
      | some v =>
          match runDatumDetectorsE ds c v with
          | Except.error e => ⟨1, [], some e⟩
          | Except.ok none =>
              let tail := dataScanEGo ds cat rest
              { tail with counter := tail.counter + 1 }
          | Except.ok (some (ty, dn)) =>
              match cat c ty dn with
              | Except.error e => ⟨1, [], some e⟩
              | Except.ok _ =>
                  let tail := dataScanEGo ds cat rest
                  ⟨tail.counter + 1, (c, ty, dn) :: tail.writes, tail.err⟩

/-! Characterizations of the first-match loops. -/

/-- The table loop returns `some t` exactly when the table splits as a
prefix of non-matching entries followed by an entry for `t` whose pattern
matches. -/
theorem firstTableMatch_eq_some_iff (table : List (PiiType × List String)) (n : String) (t : PiiType) :
    firstTableMatch table n = some t ↔
      ∃ pre toks post, table = pre ++ (t, toks) :: post ∧
        regexEntryMatch toks n = true ∧
        ∀ p ∈ pre, regexEntryMatch p.2 n = false := by
  induction table with
  | nil =>
      constructor
      · intro h
        simp [firstTableMatch] at h
      · rintro ⟨pre, toks, post, habs, -, -⟩
        exact absurd habs (by simp)
  | cons hd rest ih =>
      obtain ⟨t0, toks0⟩ := hd
      by_cases h : regexEntryMatch toks0 n = true
      · rw [show firstTableMatch ((t0, toks0) :: rest) n = some t0 by
          simp [firstTableMatch, h]]
        constructor
        · intro hsome
          injection hsome with ht
          subst ht
          exact ⟨[], toks0, rest, by simp, h, by simp⟩
        · rintro ⟨pre, toks, post, heq, hm, hpre⟩
          cases pre with
          | nil =>
              simp only [List.nil_append, List.cons.injEq, Prod.mk.injEq] at heq
              rw [heq.1.1]
          | cons q pre' =>
              simp only [List.cons_append, List.cons.injEq] at heq
              have hq := hpre q (List.mem_cons_self q pre')
              rw [← heq.1] at hq
              simp only at hq
              simp [hq] at h
      · rw [show firstTableMatch ((t0, toks0) :: rest) n = firstTableMatch rest n by
          simp [firstTableMatch, h]]
        rw [ih]
        constructor
        · rintro ⟨pre, toks, post, heq, hm, hpre⟩
          refine ⟨(t0, toks0) :: pre, toks, post, by rw [heq]; rfl, hm, ?_⟩
          intro p hp
          rcases List.mem_cons.mp hp with hp | hp
          · rw [hp]
            simpa using eq_false_of_ne_true h
          · exact hpre p hp
        · rintro ⟨pre, toks, post, heq, hm, hpre⟩
          cases pre with
          | nil =>
              simp only [List.nil_append, List.cons.injEq, Prod.mk.injEq] at heq
              rw [heq.1.2] at h
              exact absurd hm h
          | cons q pre' =>
              simp only [List.cons_append, List.cons.injEq] at heq
              exact ⟨pre', toks, post, heq.2, hm,
                fun p hp => hpre p (List.mem_cons_of_mem q hp)⟩

/-- The table loop falls through to `None` exactly when no entry's pattern
matches. -/
theorem firstTableMatch_eq_none_iff (table : List (PiiType × List String)) (n : String) :
    firstTableMatch table n = none ↔
      ∀ p ∈ table, regexEntryMatch p.2 n = false := by
  induction table with
  | nil => simp [firstTableMatch]
  | cons hd rest ih =>
      obtain ⟨t0, toks0⟩ := hd
      by_cases h : regexEntryMatch toks0 n = true
      · simp [firstTableMatch, h]
      · rw [show firstTableMatch ((t0, toks0) :: rest) n = firstTableMatch rest n by
          simp [firstTableMatch, h]]
        rw [ih]
        constructor
        · intro hall p hp
          rcases List.mem_cons.mp hp with hp | hp
          · rw [hp]
            simpa using eq_false_of_ne_true h
          · exact hall p hp
        · intro hall p hp
          exact hall p (List.mem_cons_of_mem _ hp)

/-- A prefix of non-matching entries is skipped by the table loop. -/
theorem firstTableMatch_append_of_no_hit (pre rest : List (PiiType × List String)) (n : String)
    (hpre : ∀ p ∈ pre, regexEntryMatch p.2 n = false) :
    firstTableMatch (pre ++ rest) n = firstTableMatch rest n := by
  induction pre with
  | nil => rfl
  | cons q pre' ih =>
      obtain ⟨t0, toks0⟩ := q
      have hq : regexEntryMatch toks0 n = false := hpre (t0, toks0) (List.mem_cons_self _ _)
      simp only [List.cons_append, firstTableMatch, hq, Bool.false_eq_true, if_false]
      exact ih fun p hp => hpre p (List.mem_cons_of_mem _ hp)

/-- Claim C2: `ColumnNameRegexDetector.detect` iterates its pattern table
in definition order — Person, Email, BirthDate, Gender, Nationality,
Address, ZipCode, UserName, Password, SSN, PoBox, CreditCard, Phone, KTP —
and returns the PiiType of the first entry whose case-insensitive,
both-ends-anchored pattern matches the column's bare name (`some t` exactly
when the table splits into a non-matching prefix followed by a matching
entry for `t`), and returns nothing when no pattern matches; in particular
`"user_email"` yields Email, `"zip_code"` yields ZipCode and `"notes"`
yields nothing. -/
theorem claim_C2_thm :
    (ColumnNameRegexDetector.regex.map Prod.fst =
      [PiiType.Person, PiiType.Email, PiiType.BirthDate, PiiType.Gender,
       PiiType.Nationality, PiiType.Address, PiiType.ZipCode,
       PiiType.UserName, PiiType.Password, PiiType.SSN, PiiType.PoBox,
       PiiType.CreditCard, PiiType.Phone, PiiType.KTP]) ∧
    (∀ c : CatColumn, ∀ t : PiiType,
      ColumnNameRegexDetector.detect c = some t ↔
        ∃ pre toks post, ColumnNameRegexDetector.regex = pre ++ (t, toks) :: post ∧
          regexEntryMatch toks c.name = true ∧
          ∀ p ∈ pre, regexEntryMatch p.2 c.name = false) ∧
    (∀ c : CatColumn,
      ColumnNameRegexDetector.detect c = none ↔
        ∀ p ∈ ColumnNameRegexDetector.regex, regexEntryMatch p.2 c.name = false) ∧
    ColumnNameRegexDetector.detect ⟨"user_email", ""⟩ = some PiiType.Email ∧
    ColumnNameRegexDetector.detect ⟨"zip_code", ""⟩ = some PiiType.ZipCode ∧
    ColumnNameRegexDetector.detect ⟨"notes", ""⟩ = none := by
  refine ⟨by decide, ?_, ?_, by decide, by decide, by decide⟩
  · intro c t
    exact firstTableMatch_eq_some_iff ColumnNameRegexDetector.regex c.name t
  · intro c
    exact firstTableMatch_eq_none_iff ColumnNameRegexDetector.regex c.name

/-- Claim C10: a column whose name contains the substring `"pass"`
case-insensitively and is matched by none of the eight earlier entries of
the name-pattern table (Person, Email, BirthDate, Gender, Nationality,
Address, ZipCode, UserName) is classified Password by
`ColumnNameRegexDetector.detect`; in particular a column named
`"passport"` is classified Password. -/
theorem claim_C10_thm :
    (∀ c : CatColumn,
      charSub (lowerChars "pass") (lowerChars c.name) = true →
      (∀ p ∈ ColumnNameRegexDetector.regex.take 8,
        regexEntryMatch p.2 c.name = false) →
      ColumnNameRegexDetector.detect c = some PiiType.Password) ∧
    ColumnNameRegexDetector.detect ⟨"passport", ""⟩ = some PiiType.Password := by
  refine ⟨?_, by decide⟩
  intro c hpass hpre
  have hsplit : ColumnNameRegexDetector.regex =
      ColumnNameRegexDetector.regex.take 8 ++
        ((PiiType.Password, ["pass"]) :: ColumnNameRegexDetector.regex.drop 9) := by
    decide
  unfold ColumnNameRegexDetector.detect
  rw [hsplit, firstTableMatch_append_of_no_hit _ _ _ hpre]
  have hm : regexEntryMatch ["pass"] c.name = true := by
    simp [regexEntryMatch, hpass]
  simp [firstTableMatch, hm]

/-- The detector loop of `metadata_scan` hits exactly when some detector of
the list hits. -/
theorem runMetaDetectors_fst_isSome (ds : List MetadataDetector) (c : CatColumn) :
    (runMetaDetectors ds c).1.isSome = ds.any fun d => (d.detect c).isSome := by
  induction ds with
  | nil => rfl
  | cons d ds ih =>
      cases hd : d.detect c with
      | some t => simp [runMetaDetectors, hd]
      | none => simp [runMetaDetectors, hd, ih]

/-- First-match-wins for the `metadata_scan` detector loop: when every
detector before `d` misses and `d` hits, the loop's result is `d`'s hit
with `d`'s name, and the invoked detectors are exactly those up to and
including `d` — none after `d` is called. -/
theorem runMetaDetectors_first_hit (pre : List MetadataDetector) (d : MetadataDetector)
    (post : List MetadataDetector) (c : CatColumn) (ty : PiiType)
    (hpre : ∀ d' ∈ pre, d'.detect c = none) (hd : d.detect c = some ty) :
    runMetaDetectors (pre ++ d :: post) c =
      (some (ty, d.name), (pre ++ [d]).map MetadataDetector.name) := by
  induction pre with
  | nil => simp [runMetaDetectors, hd]
  | cons q pre ih =>
      have hq : q.detect c = none := hpre q (List.mem_cons_self _ _)
      have ih' := ih fun d' h => hpre d' (List.mem_cons_of_mem _ h)
      simp [runMetaDetectors, hq, ih']

/-- The detector loop of `data_scan` hits exactly when some detector of the
list hits. -/
theorem runDatumDetectors_fst_isSome (ds : List DatumDetector) (c : CatColumn) (v : String) :
    (runDatumDetectors ds c v).1.isSome = ds.any fun d => (d.detect c v).isSome := by
  induction ds with
  | nil => rfl
  | cons d ds ih =>
      cases hd : d.detect c v with
      | some t => simp [runDatumDetectors, hd]
      | none => simp [runDatumDetectors, hd, ih]

/-- First-match-wins for the `data_scan` detector loop. -/
theorem runDatumDetectors_first_hit (pre : List DatumDetector) (d : DatumDetector)
    (post : List DatumDetector) (c : CatColumn) (v : String) (ty : PiiType)
    (hpre : ∀ d' ∈ pre, d'.detect c v = none) (hd : d.detect c v = some ty) :
    runDatumDetectors (pre ++ d :: post) c v =
      (some (ty, d.name), (pre ++ [d]).map DatumDetector.name) := by
  induction pre with
  | nil => simp [runDatumDetectors, hd]
  | cons q pre ih =>
      have hq : q.detect c v = none := hpre q (List.mem_cons_self _ _)
      have ih' := ih fun d' h => hpre d' (List.mem_cons_of_mem _ h)
      simp [runDatumDetectors, hq, ih']

/-- Counting invariant of the `metadata_scan` loop: every item is counted,
`set_number` counts the items some detector matches, and each labeled item
produces exactly one catalog write. -/
theorem metaScanGo_counts (ds : List MetadataDetector)
    (gen : List (CatSchema × CatTable × CatColumn)) :
    (metaScanGo ds gen).counter = gen.length ∧
    (metaScanGo ds gen).set_number =
      gen.countP (fun i => ds.any fun d => (d.detect i.2.2).isSome) ∧
    (metaScanGo ds gen).writes.length = (metaScanGo ds gen).set_number := by
  induction gen with
  | nil => simp [metaScanGo]
  | cons i rest ih =>
      obtain ⟨s, t, c⟩ := i
      obtain ⟨ih1, ih2, ih3⟩ := ih
      cases hr : (runMetaDetectors ds c).1 with
      | some p =>
          obtain ⟨ty, dn⟩ := p
          have hhit : (ds.any fun d => (d.detect c).isSome) = true := by
            rw [← runMetaDetectors_fst_isSome, hr]
            rfl
          simp [metaScanGo, hr, List.countP_cons, hhit, ih1, ih2, ih3]
      | none =>
          have hmiss : (ds.any fun d => (d.detect c).isSome) = false := by
            rw [← runMetaDetectors_fst_isSome, hr]
            rfl
          simp [metaScanGo, hr, List.countP_cons, hmiss, ih1, ih2, ih3]

/-- Claim C5: for every `metadata_scan` run over a work enumeration of `N`
columns of which exactly `K` are matched by some detector, the processed
count is `N`, the labeled count is `K`, the catalog receives exactly `K`
`set_column_pii_type` calls, and once the first matching detector for a
column fires, no detector after it is invoked for that column (the invoked
detectors are exactly the non-matching prefix plus the matching one). -/
theorem claim_C5_thm :
    ∀ (ds : List MetadataDetector) (wg gen : List (CatSchema × CatTable × CatColumn)),
      (metadata_scan ds wg gen).counter = gen.length ∧
      (metadata_scan ds wg gen).set_number =
        gen.countP (fun i => ds.any fun d => (d.detect i.2.2).isSome) ∧
      (metadata_scan ds wg gen).writes.length = (metadata_scan ds wg gen).set_number ∧
      (∀ (c : CatColumn) (pre : List MetadataDetector) (d : MetadataDetector)
          (post : List MetadataDetector) (ty : PiiType),
        ds = pre ++ d :: post →
        (∀ d' ∈ pre, d'.detect c = none) →
        d.detect c = some ty →
        runMetaDetectors ds c =
          (some (ty, d.name), (pre ++ [d]).map MetadataDetector.name)) := by
  intro ds wg gen
  obtain ⟨h1, h2, h3⟩ := metaScanGo_counts ds gen
  refine ⟨h1, h2, h3, ?_⟩
  intro c pre d post ty hds hpre hd
  rw [hds]
  exact runMetaDetectors_first_hit pre d post c ty hpre hd

/-- Claim C1 (amended): within a single work item, at most one
classification is written — each item of either scan contributes at most
one catalog write, and for the item the first detector in registration
order that returns a non-empty result wins, the remaining detectors not
being invoked.  (Per column across items this fails: see the
counterexample — a column sampled twice in `data_scan` can be written
twice.) -/
theorem claim_C1_thm :
    (∀ (ds : List MetadataDetector) (i : CatSchema × CatTable × CatColumn)
        (rest : List (CatSchema × CatTable × CatColumn)),
      (metaScanGo ds (i :: rest)).writes.length ≤
        (metaScanGo ds rest).writes.length + 1) ∧
    (∀ (ds : List DatumDetector) (i : CatSchema × CatTable × CatColumn × Option String)
        (rest : List (CatSchema × CatTable × CatColumn × Option String)),
      (dataScanGo ds (i :: rest)).writes.length ≤
        (dataScanGo ds rest).writes.length + 1) ∧
    (∀ (ds : List DatumDetector) (c : CatColumn) (v : String)
        (pre : List DatumDetector) (d : DatumDetector) (post : List DatumDetector)
        (ty : PiiType),
      ds = pre ++ d :: post →
      (∀ d' ∈ pre, d'.detect c v = none) →
      d.detect c v = some ty →
      runDatumDetectors ds c v =
        (some (ty, d.name), (pre ++ [d]).map DatumDetector.name)) := by
  refine ⟨?_, ?_, ?_⟩
  · intro ds i rest
    obtain ⟨s, t, c⟩ := i
    cases hr : (runMetaDetectors ds c).1 with
    | some p =>
        obtain ⟨ty, dn⟩ := p
        simp [metaScanGo, hr]
    | none => simp [metaScanGo, hr]
  · intro ds i rest
    obtain ⟨s, t, c, val⟩ := i
    cases val with
    | none => simp [dataScanGo]
    | some v =>
        cases hr : (runDatumDetectors ds c v).1 with
        | some p =>
            obtain ⟨ty, dn⟩ := p
            simp [dataScanGo, hr]
        | none => simp [dataScanGo, hr]
  · intro ds c v pre d post ty hds hpre hd
    rw [hds]
    exact runDatumDetectors_first_hit pre d post c v ty hpre hd

/-- Claim C1 counterexample: one `data_scan` pass whose work enumeration
samples the same column twice, both values phone-shaped, writes the
column's classification twice — `set_column_pii_type` is called more than
once for one column in one pass. -/
theorem claim_C1_cex :
    (data_scan [⟨"DatumRegexDetector", DatumRegexDetector.detect crSpec⟩] []
        [(⟨"s"⟩, ⟨"t"⟩, ⟨"cc", "db.tbl.cc"⟩, some "555-123-4567"),
         (⟨"s"⟩, ⟨"t"⟩, ⟨"cc", "db.tbl.cc"⟩, some "555-987-6543")] 2).writes =
      [(⟨"cc", "db.tbl.cc"⟩, PiiType.Phone, "DatumRegexDetector"),
       (⟨"cc", "db.tbl.cc"⟩, PiiType.Phone, "DatumRegexDetector")] := by
  decide

/-- Claim C9: the datum detector's result does not depend on the column
argument — the parameter is accepted but never read. -/
theorem claim_C9_thm :
    ∀ (cr : CommonRegexAPI) (c1 c2 : CatColumn) (d : String),
      DatumRegexDetector.detect cr c1 d = DatumRegexDetector.detect cr c2 d := by
  intro cr c1 c2 d
  rfl

/-- Claim C3: `DatumRegexDetector.detect` coerces the datum to text (the
identity on the strings the driver passes) and tests the fixed ordered
recognizer sequence phones, emails, credit cards, street addresses, SSN
numbers, ZIP codes, PO boxes, KTP — returning the type of the first
recognizer that matches, and nothing when none match; with the
spec-modelled recognizers, prose containing a phone-shaped substring yields
Phone. -/
theorem claim_C3_thm :
    (∀ (cr : CommonRegexAPI) (c : CatColumn) (d : String),
      DatumRegexDetector.detect cr c d = firstRecognizer (datumRecognizerTable cr) d) ∧
    (∀ (cr : CommonRegexAPI) (c : CatColumn) (d : String),
      (∀ p ∈ datumRecognizerTable cr, p.1 d = false) →
      DatumRegexDetector.detect cr c d = none) ∧
    DatumRegexDetector.detect crSpec ⟨"notes", "db.t.notes"⟩
      "call me at 555-123-4567 thanks" = some PiiType.Phone := by
  refine ⟨?_, ?_, by decide⟩
  · intro cr c d
    rfl
  · intro cr c d h
    have h1 : cr.phones d = false := h (cr.phones, PiiType.Phone) (by simp [datumRecognizerTable])
    have h2 : cr.emails d = false := h (cr.emails, PiiType.Email) (by simp [datumRecognizerTable])
    have h3 : cr.credit_cards d = false :=
      h (cr.credit_cards, PiiType.CreditCard) (by simp [datumRecognizerTable])
    have h4 : cr.street_addresses d = false :=
      h (cr.street_addresses, PiiType.Address) (by simp [datumRecognizerTable])
    have h5 : cr.ssn_numbers d = false :=
      h (cr.ssn_numbers, PiiType.SSN) (by simp [datumRecognizerTable])
    have h6 : cr.zip_codes d = false :=
      h (cr.zip_codes, PiiType.ZipCode) (by simp [datumRecognizerTable])
    have h7 : cr.po_boxes d = false :=
      h (cr.po_boxes, PiiType.PoBox) (by simp [datumRecognizerTable])
    have h8 : cr.ktp d = false := h (cr.ktp, PiiType.KTP) (by simp [datumRecognizerTable])
    simp [DatumRegexDetector.detect, h1, h2, h3, h4, h5, h6, h7, h8]

/-- An item of the `data_scan` work enumeration whose present value is
matched by some detector of the list (an absent value is matched by
nothing, since the guard skips the detectors). -/
def datumItemHit (ds : List DatumDetector)
    (i : CatSchema × CatTable × CatColumn × Option String) : Bool :=
  match i.2.2.2 with
  | none => false
  | some v => ds.any fun d => (d.detect i.2.2.1 v).isSome

/-- Counting invariant of the `data_scan` loop: every item is counted,
`set_number` counts the items whose present value some detector matches,
and each labeled item produces exactly one catalog write, one safe-stream
record and one sensitive-stream record, the safe record being the
sensitive record with the raw value dropped. -/
theorem dataScanGo_counts (ds : List DatumDetector)
    (gen : List (CatSchema × CatTable × CatColumn × Option String)) :
    (dataScanGo ds gen).counter = gen.length ∧
    (dataScanGo ds gen).set_number = gen.countP (datumItemHit ds) ∧
    (dataScanGo ds gen).writes.length = (dataScanGo ds gen).set_number ∧
    (dataScanGo ds gen).scanLog.length = (dataScanGo ds gen).set_number ∧
    (dataScanGo ds gen).dataLog.length = (dataScanGo ds gen).set_number ∧
    (dataScanGo ds gen).dataLog.map (fun e => (e.1, e.2.2)) =
      (dataScanGo ds gen).scanLog := by
  induction gen with
  | nil => simp [dataScanGo]
  | cons i rest ih =>
      obtain ⟨s, t, c, val⟩ := i
      obtain ⟨ih1, ih2, ih3, ih4, ih5, ih6⟩ := ih
      cases val with
      | none =>
          have hhit : datumItemHit ds (s, t, c, none) = false := rfl
          simp [dataScanGo, List.countP_cons, hhit, ih1, ih2, ih3, ih4, ih5, ih6]
      | some v =>
          cases hr : (runDatumDetectors ds c v).1 with
          | some p =>
              obtain ⟨ty, dn⟩ := p
              have hhit : datumItemHit ds (s, t, c, some v) = true := by
                simp only [datumItemHit]
                rw [← runDatumDetectors_fst_isSome, hr]
                rfl
              simp [dataScanGo, hr, List.countP_cons, hhit, ih1, ih2, ih3, ih4,
                ih5, ih6]
          | none =>
              have hhit : datumItemHit ds (s, t, c, some v) = false := by
                simp only [datumItemHit]
                rw [← runDatumDetectors_fst_isSome, hr]
                rfl
              simp [dataScanGo, hr, List.countP_cons, hhit, ih1, ih2, ih3, ih4,
                ih5, ih6]

/-- Claim C6 (amended): for a `data_scan` run over `N` items of which the
ones with a present (non-`None`) value matched by some detector number
`J`, the processed count is `N`, the labeled count is `J`, the catalog
receives exactly `J` writes, the sensitive stream (`data_logger`) exactly
`J` records each carrying the raw sampled value, and the safe stream
(`scan_logger`) exactly `J` records, each the corresponding sensitive
record without the raw value. -/
theorem claim_C6_thm :
    ∀ (ds : List DatumDetector) (wg : List (CatSchema × CatTable × CatColumn))
      (gen : List (CatSchema × CatTable × CatColumn × Option String)) (ss : Nat),
      (data_scan ds wg gen ss).counter = gen.length ∧
      (data_scan ds wg gen ss).set_number = gen.countP (datumItemHit ds) ∧
      (data_scan ds wg gen ss).writes.length = (data_scan ds wg gen ss).set_number ∧
      (data_scan ds wg gen ss).scanLog.length = (data_scan ds wg gen ss).set_number ∧
      (data_scan ds wg gen ss).dataLog.length = (data_scan ds wg gen ss).set_number ∧
      (data_scan ds wg gen ss).dataLog.map (fun e => (e.1, e.2.2)) =
        (data_scan ds wg gen ss).scanLog := by
  intro ds wg gen ss
  simpa [data_scan] using dataScanGo_counts ds gen

/-- Claim C6 counterexample: a work item whose sampled value is the empty
string is not "non-empty", yet the guard `if val is not None` lets it
through — with a detector that matches it, the labeled count is 1 while
the number of items with a non-empty value is 0, so labeled ≠ J as the
claim states them. -/
theorem claim_C6_cex :
    (data_scan [⟨"always", fun _ _ => some PiiType.Phone⟩] []
        [(⟨"s"⟩, ⟨"t"⟩, ⟨"c", "db.t.c"⟩, some "")] 1).set_number = 1 ∧
    ([((⟨"s"⟩ : CatSchema), (⟨"t"⟩ : CatTable), (⟨"c", "db.t.c"⟩ : CatColumn),
        (some "" : Option String))].countP
      (fun i => !(i.2.2.2 == none) && !(i.2.2.2 == some ""))) = 0 := by
  decide

/-- Claim C4 (amended): a `data_scan` work item whose sampled value is
absent (`None`) is counted as processed and contributes nothing else — no
detector invocation, no catalog write, no label, no log record — wherever
it sits in the enumeration.  (An empty-string value is *present*: it
passes the `if val is not None` guard and the detectors do run on it; see
the counterexample.) -/
theorem claim_C4_thm :
    ∀ (ds : List DatumDetector)
      (pre : List (CatSchema × CatTable × CatColumn × Option String))
      (s : CatSchema) (t : CatTable) (c : CatColumn)
      (post : List (CatSchema × CatTable × CatColumn × Option String)),
      dataScanGo ds (pre ++ (s, t, c, none) :: post) =
        ⟨(dataScanGo ds (pre ++ post)).counter + 1,
         (dataScanGo ds (pre ++ post)).set_number,
         (dataScanGo ds (pre ++ post)).writes,
         (dataScanGo ds (pre ++ post)).detCalls,
         (dataScanGo ds (pre ++ post)).scanLog,
         (dataScanGo ds (pre ++ post)).dataLog⟩ := by
  intro ds pre s t c post
  induction pre with
  | nil => rfl
  | cons q pre ih =>
      obtain ⟨s', t', c', val'⟩ := q
      cases val' with
      | none => simp [dataScanGo, ih]
      | some v =>
          cases hr : (runDatumDetectors ds c' v).1 with
          | some p =>
              obtain ⟨ty, dn⟩ := p
              simp [dataScanGo, hr, ih]
          | none => simp [dataScanGo, hr, ih]

/-- Claim C4 counterexample: a work item whose sampled value is the empty
string — "empty" but not absent — does invoke the detector: the detector
call count for the item is 1, not 0. -/
theorem claim_C4_cex :
    (data_scan [⟨"always", fun _ _ => some PiiType.Phone⟩] []
        [(⟨"s"⟩, ⟨"t"⟩, ⟨"c", "db.t.c"⟩, some "")] 1).detCalls.length = 1 ∧
    (data_scan [⟨"always", fun _ _ => some PiiType.Phone⟩] []
        [(⟨"s"⟩, ⟨"t"⟩, ⟨"c", "db.t.c"⟩, some "")] 1).detCalls.length ≠ 0 := by
  decide

/-- Claim C7: both drivers are deterministic — re-running either scan on
identical inputs (same detector list, same enumerations in the same order;
the drivers never read the catalog, so its initial state cannot influence
them) produces identical counts, identical classification writes and
identical log records. -/
theorem claim_C7_thm :
    ∀ (dsm dsm' : List MetadataDetector)
      (wgm wgm' genm genm' : List (CatSchema × CatTable × CatColumn))
      (dsd dsd' : List DatumDetector)
      (wgd wgd' : List (CatSchema × CatTable × CatColumn))
      (gend gend' : List (CatSchema × CatTable × CatColumn × Option String))
      (n n' : Nat),
      dsm = dsm' → wgm = wgm' → genm = genm' →
      dsd = dsd' → wgd = wgd' → gend = gend' → n = n' →
      metadata_scan dsm wgm genm = metadata_scan dsm' wgm' genm' ∧
      data_scan dsd wgd gend n = data_scan dsd' wgd' gend' n' := by
  intro dsm dsm' wgm wgm' genm genm' dsd dsd' wgd wgd' gend gend' n n'
  intro h1 h2 h3 h4 h5 h6 h7
  subst h1
  subst h2
  subst h3
  subst h4
  subst h5
  subst h6
  subst h7
  exact ⟨rfl, rfl⟩

/-- Claim C7 witness: re-running `metadata_scan` on a one-column enumeration
with the built-in name detector, and `data_scan` on a one-item enumeration
with the built-in datum detector, reproduces the same results. -/
theorem claim_C7_witness :
    metadata_scan [⟨"ColumnNameRegexDetector", ColumnNameRegexDetector.detect⟩]
        [(⟨"s"⟩, ⟨"t"⟩, ⟨"user_email", "db.t.user_email"⟩)]
        [(⟨"s"⟩, ⟨"t"⟩, ⟨"user_email", "db.t.user_email"⟩)] =
      metadata_scan [⟨"ColumnNameRegexDetector", ColumnNameRegexDetector.detect⟩]
        [(⟨"s"⟩, ⟨"t"⟩, ⟨"user_email", "db.t.user_email"⟩)]
        [(⟨"s"⟩, ⟨"t"⟩, ⟨"user_email", "db.t.user_email"⟩)] ∧
    data_scan [⟨"DatumRegexDetector", DatumRegexDetector.detect crSpec⟩]
        [(⟨"s"⟩, ⟨"t"⟩, ⟨"c", "db.t.c"⟩)]
        [(⟨"s"⟩, ⟨"t"⟩, ⟨"c", "db.t.c"⟩, some "555-123-4567")] 1 =
      data_scan [⟨"DatumRegexDetector", DatumRegexDetector.detect crSpec⟩]
        [(⟨"s"⟩, ⟨"t"⟩, ⟨"c", "db.t.c"⟩)]
        [(⟨"s"⟩, ⟨"t"⟩, ⟨"c", "db.t.c"⟩, some "555-123-4567")] 1 :=
  claim_C7_thm _ _ _ _ _ _ _ _ _ _ _ _ 1 1 rfl rfl rfl rfl rfl rfl rfl

/-- The `metadata_scan` loop under fallible detectors and catalog either
runs to completion with no propagated exception and a processed count of
the whole enumeration, or aborts with the exception: the enumeration splits
into a prefix of cleanly processed items and a non-empty remainder, and the
catalog writes that happened are exactly those of a completed scan over the
prefix — none is rolled back, and nothing after the failure is written. -/
theorem metaScanEGo_completes_or_aborts (ds : List MetadataDetectorE)
    (cat : CatColumn → PiiType → String → Except String Unit)
    (gen : List (CatSchema × CatTable × CatColumn)) :
    ((metaScanEGo ds cat gen).err = none ∧
      (metaScanEGo ds cat gen).counter = gen.length) ∨
    (∃ e pre post, (metaScanEGo ds cat gen).err = some e ∧
      gen = pre ++ post ∧ post ≠ [] ∧
      (metaScanEGo ds cat pre).err = none ∧
      (metaScanEGo ds cat gen).writes = (metaScanEGo ds cat pre).writes) := by
  induction gen with
  | nil => exact Or.inl ⟨rfl, rfl⟩
  | cons i rest ih =>
      obtain ⟨s, t, c⟩ := i
      cases hd : runMetaDetectorsE ds c with
      | error e =>
          refine Or.inr ⟨e, [], (s, t, c) :: rest, ?_, by simp, by simp, rfl, ?_⟩
          · simp [metaScanEGo, hd]
          · simp [metaScanEGo, hd]
      | ok r =>
          cases r with
          | none =>
              have hstep : ∀ L, metaScanEGo ds cat ((s, t, c) :: L) =
                  { metaScanEGo ds cat L with
                    counter := (metaScanEGo ds cat L).counter + 1 } := by
                intro L
                simp [metaScanEGo, hd]
              rcases ih with ⟨he, hc⟩ | ⟨e, pre, post, he, heq, hne, hpre, hw⟩
              · exact Or.inl ⟨by simp [hstep, he], by simp [hstep, hc]⟩
              · refine Or.inr ⟨e, (s, t, c) :: pre, post, by simp [hstep, he],
                  by simp [heq], hne, by simp [hstep, hpre], ?_⟩
                rw [hstep rest, hstep pre]
                simpa using hw
          | some p =>
              obtain ⟨ty, dn⟩ := p
              cases hc : cat c ty dn with
              | error e =>
                  refine Or.inr ⟨e, [], (s, t, c) :: rest, ?_, by simp, by simp,
                    rfl, ?_⟩
                  · simp [metaScanEGo, hd, hc]
                  · simp [metaScanEGo, hd, hc]
              | ok u =>
                  cases u
                  have hstep : ∀ L, metaScanEGo ds cat ((s, t, c) :: L) =
                      ⟨(metaScanEGo ds cat L).counter + 1,
                       (c, ty, dn) :: (metaScanEGo ds cat L).writes,
                       (metaScanEGo ds cat L).err⟩ := by
                    intro L
                    simp [metaScanEGo, hd, hc]
                  rcases ih with ⟨he, hcnt⟩ | ⟨e, pre, post, he, heq, hne, hpre, hw⟩
                  · exact Or.inl ⟨by simp [hstep, he], by simp [hstep, hcnt]⟩
                  · refine Or.inr ⟨e, (s, t, c) :: pre, post, by simp [hstep, he],
                      by simp [heq], hne, by simp [hstep, hpre], ?_⟩
                    rw [hstep rest, hstep pre]
                    simpa using hw

/-- The `data_scan` loop under fallible detectors and catalog: same
completion-or-abort structure as the metadata loop, the `None`-valued items
being skipped past the detectors. -/
theorem dataScanEGo_completes_or_aborts (ds : List DatumDetectorE)
    (cat : CatColumn → PiiType → String → Except String Unit)
    (gen : List (CatSchema × CatTable × CatColumn × Option String)) :
    ((dataScanEGo ds cat gen).err = none ∧
      (dataScanEGo ds cat gen).counter = gen.length) ∨
    (∃ e pre post, (dataScanEGo ds cat gen).err = some e ∧
      gen = pre ++ post ∧ post ≠ [] ∧
      (dataScanEGo ds cat pre).err = none ∧
      (dataScanEGo ds cat gen).writes = (dataScanEGo ds cat pre).writes) := by
  induction gen with
  | nil => exact Or.inl ⟨rfl, rfl⟩
  | cons i rest ih =>
      obtain ⟨s, t, c, val⟩ := i
      cases val with
      | none =>
          have hstep : ∀ L, dataScanEGo ds cat ((s, t, c, none) :: L) =
              { dataScanEGo ds cat L with
                counter := (dataScanEGo ds cat L).counter + 1 } := by
            intro L
            simp [dataScanEGo]
          rcases ih with ⟨he, hc⟩ | ⟨e, pre, post, he, heq, hne, hpre, hw⟩
          · exact Or.inl ⟨by simp [hstep, he], by simp [hstep, hc]⟩
          · refine Or.inr ⟨e, (s, t, c, none) :: pre, post, by simp [hstep, he],
              by simp [heq], hne, by simp [hstep, hpre], ?_⟩
            rw [hstep rest, hstep pre]
            simpa using hw
      | some v =>
          cases hd : runDatumDetectorsE ds c v with
          | error e =>
              refine Or.inr ⟨e, [], (s, t, c, some v) :: rest, ?_, by simp,
                by simp, rfl, ?_⟩
              · simp [dataScanEGo, hd]
              · simp [dataScanEGo, hd]
          | ok r =>
              cases r with
              | none =>
                  have hstep : ∀ L, dataScanEGo ds cat ((s, t, c, some v) :: L) =
                      { dataScanEGo ds cat L with
                        counter := (dataScanEGo ds cat L).counter + 1 } := by
                    intro L
                    simp [dataScanEGo, hd]
                  rcases ih with ⟨he, hc⟩ | ⟨e, pre, post, he, heq, hne, hpre, hw⟩
                  · exact Or.inl ⟨by simp [hstep, he], by simp [hstep, hc]⟩
                  · refine Or.inr ⟨e, (s, t, c, some v) :: pre, post,
                      by simp [hstep, he], by simp [heq], hne,
                      by simp [hstep, hpre], ?_⟩
                    rw [hstep rest, hstep pre]
                    simpa using hw
              | some p =>
                  obtain ⟨ty, dn⟩ := p
                  cases hc : cat c ty dn with
                  | error e =>
                      refine Or.inr ⟨e, [], (s, t, c, some v) :: rest, ?_, by simp,
                        by simp, rfl, ?_⟩
                      · simp [dataScanEGo, hd, hc]
                      · simp [dataScanEGo, hd, hc]
                  | ok u =>
                      cases u
                      have hstep : ∀ L, dataScanEGo ds cat ((s, t, c, some v) :: L) =
                          ⟨(dataScanEGo ds cat L).counter + 1,
                           (c, ty, dn) :: (dataScanEGo ds cat L).writes,
                           (dataScanEGo ds cat L).err⟩ := by
                        intro L
                        simp [dataScanEGo, hd, hc]
                      rcases ih with ⟨he, hcnt⟩ | ⟨e, pre, post, he, heq, hne, hpre, hw⟩
                      · exact Or.inl ⟨by simp [hstep, he], by simp [hstep, hcnt]⟩
                      · refine Or.inr ⟨e, (s, t, c, some v) :: pre, post,
                          by simp [hstep, he], by simp [heq], hne,
                          by simp [hstep, hpre], ?_⟩
                        rw [hstep rest, hstep pre]
                        simpa using hw

/-- Claim C8: neither driver catches exceptions — under fallible detectors
and a fallible catalog write, a scan either completes (no propagated
exception, processed count = the whole enumeration) or the first raise
propagates and aborts it, in which case the catalog writes performed are
exactly those of a completed scan over the cleanly processed prefix of the
enumeration: earlier writes remain (no rollback) and nothing further is
written. -/
theorem claim_C8_thm :
    (∀ (ds : List MetadataDetectorE)
        (cat : CatColumn → PiiType → String → Except String Unit)
        (gen : List (CatSchema × CatTable × CatColumn)),
      ((metaScanEGo ds cat gen).err = none ∧
        (metaScanEGo ds cat gen).counter = gen.length) ∨
      (∃ e pre post, (metaScanEGo ds cat gen).err = some e ∧
        gen = pre ++ post ∧ post ≠ [] ∧
        (metaScanEGo ds cat pre).err = none ∧
        (metaScanEGo ds cat gen).writes = (metaScanEGo ds cat pre).writes)) ∧
    (∀ (ds : List DatumDetectorE)
        (cat : CatColumn → PiiType → String → Except String Unit)
        (gen : List (CatSchema × CatTable × CatColumn × Option String)),
      ((dataScanEGo ds cat gen).err = none ∧
        (dataScanEGo ds cat gen).counter = gen.length) ∨
      (∃ e pre post, (dataScanEGo ds cat gen).err = some e ∧
        gen = pre ++ post ∧ post ≠ [] ∧
        (dataScanEGo ds cat pre).err = none ∧
        (dataScanEGo ds cat gen).writes = (dataScanEGo ds cat pre).writes)) :=
  ⟨metaScanEGo_completes_or_aborts, dataScanEGo_completes_or_aborts⟩

end Piicatcher
